import Mathlib

/-!
Verification of expandjs/xp-scheduler against its specification.

The development shallowly embeds the two source files:
* `src/lib/index.js` — the `XPScheduler` class (registry, timers, poll loop)
  and the `Task` class bound to an `rrule` recurrence (`adaptee`);
* `src/unnamed/part_000` — an older scheduler variant with `unschedule`.

Instants are milliseconds as `Int` (JS `Date.getTime()`).  JS objects used as
maps become association lists; `undefined` becomes `Option.none`.  The external
`rrule` library is not part of the repository; where its behaviour decides a
claim it is modelled from the specification's description of the calendar
evaluator (see the `Modelled from the spec:` comments).
-/

/-- `XP.ValidationError(name, type)`: the offending field and its expected
type, as raised by the validators in the source. -/
structure VErr where
  field : String
  expected : String
deriving DecidableEq, Repr

/-- A parsed `startTime` string `HH:mm[:ss]`: the source reads hours, minutes
and the optional seconds from `XP.timeRegex` groups 1, 2 and 4. -/
structure TimeOfDay where
  hh : Int
  mm : Int
  ss : Option Int
deriving DecidableEq, Repr

/-- The options object accepted by `Task` (src/lib/index.js lines 252-266),
plus the `id` consumed by the scheduler.  `none` is an absent (`undefined`)
field; explicit JS `null` arguments behave like absence for these fields
because every default is applied with `||`. -/
structure TaskOptions where
  id : Option String := none
  endDate : Option Int := none
  frequency : Option String := none
  interval : Option Int := none
  iterations : Option Int := none
  month : Option Int := none
  monthDay : Option Int := none
  startDate : Option Int := none
  startTime : Option TimeOfDay := none
  week : Option String := none
  weekDay : Option String := none
  weekDays : Option (List String) := none
deriving DecidableEq, Repr

/-- JS `v || null` on an optional number: `0` is falsy, so an explicit `0`
becomes `null`. -/
def orNullInt (v : Option Int) : Option Int :=
  match v with
  | some 0 => none
  | v => v

/-- JS `v || null` on an optional string: the empty string is falsy. -/
def orNullStr (v : Option String) : Option String :=
  match v with
  | some s => if s = "" then none else some s
  | none => none

/-- JS `v || d` on an optional string with a (truthy) default `d`. -/
def jsOrStr (v : Option String) (d : String) : String :=
  match v with
  | some s => if s = "" then d else s
  | none => d

/-- Association-list lookup, standing in for JS property access `m[k]`. -/
def lookupL (m : List (String × α)) (k : String) : Option α :=
  (m.find? (fun p => decide (p.1 = k))).map (fun p => p.2)

/-- JS `delete m[k]`: every binding of `k` disappears. -/
def eraseL (m : List (String × α)) (k : String) : List (String × α) :=
  m.filter (fun p => !(decide (p.1 = k)))

/-- JS `m[k] = v` preceded by a delete of `k` (the only way the sources write
to a possibly-present key, apart from timer-handle overwrites whose position
is irrelevant): the binding moves to the end. -/
def insertL (m : List (String × α)) (k : String) (v : α) : List (String × α) :=
  eraseL m k ++ [(k, v)]

/-- `Task.frequencies` (src/lib/index.js lines 318-331): recognised frequency
names and the rrule constants they map to; `precise` maps to `YEARLY`. -/
def frequencies : List (String × String) :=
  [("daily", "DAILY"), ("hourly", "HOURLY"), ("minutely", "MINUTELY"),
   ("monthly", "MONTHLY"), ("precise", "YEARLY"), ("secondly", "SECONDLY"),
   ("weekly", "WEEKLY"), ("yearly", "YEARLY")]

/-- `Task.days` (src/lib/index.js lines 294-298). -/
def days : List (String × String) :=
  [("mo", "MO"), ("tu", "TU"), ("we", "WE"), ("th", "TH"),
   ("fr", "FR"), ("sa", "SA"), ("su", "SU")]

/-- `Task.weeks` (src/lib/index.js lines 464-468). -/
def weeks : List (String × Int) :=
  [("first", 1), ("second", 2), ("third", 3), ("fourth", 4), ("last", -1)]

/-- `interval`/`iterations` validator (src lines 353-356, 364-367):
null, or an integer at least 1. -/
def validPos (v : Option Int) : Bool :=
  v.all (fun n => decide (1 ≤ n))

/-- `month`/`monthDay` validators (src lines 375-378, 386-389): null, or an
integer within the inclusive range. -/
def validRange (lo hi : Int) (v : Option Int) : Bool :=
  v.all (fun n => decide (lo ≤ n) && decide (n ≤ hi))

/-- `startTime` validator (`XP.isTime`, src lines 419-422): null, or a time
whose components lie in range. -/
def validTime (v : Option TimeOfDay) : Bool :=
  v.all (fun t =>
    decide (0 ≤ t.hh) && decide (t.hh ≤ 23) &&
    decide (0 ≤ t.mm) && decide (t.mm ≤ 59) &&
    t.ss.all (fun x => decide (0 ≤ x) && decide (x ≤ 59)))

/-- The `byweekday` argument built in `Task`'s constructor: a single rrule
day constant when `weekDay` is set, otherwise the mapped `weekDays` list. -/
inductive ByWeekday
  | single (d : String)
  | many (ds : List String)
deriving DecidableEq, Repr

/-- The argument record passed to `new RRule({...})` (src lines 269-282). -/
structure RRuleOptions where
  freq : String
  interval : Option Int
  count : Option Int
  byweekday : ByWeekday
  bymonth : Option Int
  bymonthday : Option Int
  byhour : Option Int
  byminute : Option Int
  bysecond : Option Int
  bysetpos : Option Int
  dtstart : Int
  untilMs : Option Int
deriving DecidableEq, Repr

/-- The constructed task: the validated recurrence fields and the rrule
argument record (`adaptee`). -/
structure TaskModel where
  id : String
  endDate : Option Int
  frequency : String
  interval : Option Int
  iterations : Option Int
  month : Option Int
  monthDay : Option Int
  startDate : Int
  startTime : Option TimeOfDay
  week : Option String
  weekDay : Option String
  weekDays : List String
  adaptee : RRuleOptions
deriving DecidableEq, Repr

/-- `Task`'s constructor (src/lib/index.js lines 252-283).  Assignments run in
source order; each field's `validate` (embedded above) rejects a bad value
with a `ValidationError` naming the field.  `ctime` stands for `new Date()` at
construction.  Date- and type-level checks (`XP.isDate`, `XP.isInt`) are
enforced by the Lean types.  Modelled from the spec: the task `id` — the
`lib/classes/Task` file carrying the id/handler wiring is not under src/, and
§4.2 says "If `id` omitted, generate a fresh unique identifier" (`genId`). -/
def Task.make (ctime : Int) (genId : String) (o : TaskOptions) : Except VErr TaskModel :=
  if (lookupL frequencies (jsOrStr o.frequency ("precise"))).isNone then
    .error ⟨"frequency", "string"⟩
  else if !(validPos (orNullInt o.interval)) then
    .error ⟨"interval", "number"⟩
  else if !(validPos (if jsOrStr o.frequency ("precise") ≠ "precise"
      then orNullInt o.iterations else some 1)) then
    .error ⟨"iterations", "number"⟩
  else if !(validRange 1 12 (orNullInt o.month)) then
    .error ⟨"month", "number"⟩
  else if !(validRange 1 31 (orNullInt o.monthDay)) then
    .error ⟨"monthDay", "number"⟩
  else if !(validTime o.startTime) then
    .error ⟨"startTime", "string"⟩
  else if !((orNullStr o.week).all (fun w => (lookupL weeks w).isSome)) then
    .error ⟨"week", "string"⟩
  else if !((orNullStr o.weekDay).all (fun d => (lookupL days d).isSome)) then
    .error ⟨"weekDay", "string"⟩
  else if !((o.weekDays.getD []).all (fun d => (lookupL days d).isSome)) then
    .error ⟨"weekDays", "Array"⟩
  else
    .ok
      { id := (orNullStr o.id).getD genId
        endDate := o.endDate
        frequency := jsOrStr o.frequency ("precise")
        interval := orNullInt o.interval
        iterations :=
          if jsOrStr o.frequency ("precise") ≠ "precise" then orNullInt o.iterations
          else some 1
        month := orNullInt o.month
        monthDay := orNullInt o.monthDay
        startDate := o.startDate.getD ctime
        startTime := o.startTime
        week := orNullStr o.week
        weekDay := orNullStr o.weekDay
        weekDays := o.weekDays.getD []
        adaptee :=
          { freq := (lookupL frequencies (jsOrStr o.frequency ("precise"))).getD ""
            interval := orNullInt o.interval
            count :=
              if jsOrStr o.frequency ("precise") ≠ "precise" then orNullInt o.iterations
              else some 1
            byweekday :=
              match orNullStr o.weekDay with
              | some d => .single ((lookupL days d).getD "")
              | none => .many ((o.weekDays.getD []).map (fun d => (lookupL days d).getD ""))
            bymonth := orNullInt o.month
            bymonthday := orNullInt o.monthDay
            byhour := o.startTime.map (fun t => t.hh)
            byminute := o.startTime.map (fun t => t.mm)
            bysecond := o.startTime.bind (fun t => t.ss)
            bysetpos := (orNullStr o.week).bind (fun w => lookupL weeks w)
            dtstart := o.startDate.getD ctime
            untilMs := o.endDate } }

/-- Modelled from the spec (§4.1): the external calendar evaluator (`rrule`'s
`after`, not repository code) "enumerate[s] candidate periods … and pick[s]
the first candidate beyond the reference instant" — given the rule's (already
capped) occurrence list, return the first occurrence strictly after `t`.
It is a function of the instant alone: the rule object keeps no call state. -/
def afterList (occs : List Int) (t : Int) : Option Int :=
  (occs.filter (fun d => decide (t < d))).head?

/-- Modelled from the spec (§3, §4.1): the occurrence set of a fixed-period
rule (the secondly/minutely/hourly/daily/weekly frequencies have a fixed
millisecond period) with iteration cap `n` (rrule's `count`) and optional
inclusive `until` bound: `dtstart, dtstart + step, …`, at most `n` of them,
none beyond `until`. -/
def cappedOccurrences (dtstart step : Int) (n : Nat) (untilMs : Option Int) : List Int :=
  ((List.range n).map (fun (k : Nat) => dtstart + step * (k : Int))).filter
    (fun d =>
      match untilMs with
      | none => true
      | some u => decide (d ≤ u))

/-- The results of successive `nextDate` reads at the given instants.
`nextDate` (src lines 398-400) is `this.adaptee.after(new Date())`: a pure
query of the current time, so the k-th call returns `after` at the k-th
instant, whatever earlier calls returned. -/
def callResults (occs : List Int) (instants : List Int) : List (Option Int) :=
  instants.map (afterList occs)

/-- One day in milliseconds. -/
def dayMs : Int := 86400000

/-- Modelled from the spec (§8): the occurrence of a `precise` rule is
"`startDate` (adjusted by `startTime` if given)" — `startTime` replaces the
time-of-day of `startDate` (the yearly rule's byhour/byminute/bysecond);
without `startTime` it is `startDate` itself. -/
def adjustedStart (startDate : Int) (startTime : Option TimeOfDay) : Int :=
  match startTime with
  | none => startDate
  | some t =>
      startDate - startDate % dayMs +
        (t.hh * 3600000 + t.mm * 60000 + (t.ss.getD 0) * 1000)

/-- Modelled from the spec: the capped occurrence list of the rule built for a
`precise` task — `count = 1` keeps only the first candidate, `until` bounds it
inclusively. -/
def preciseOccs (t : TaskModel) : List Int :=
  [adjustedStart t.startDate t.startTime].filter
    (fun d =>
      match t.adaptee.untilMs with
      | none => true
      | some u => decide (d ≤ u))

/-- The scheduler's view of a task object: its id and the rule's capped
occurrence list.  `nextDate` (src/lib/index.js lines 398-400) is
`this.adaptee && this.adaptee.after(new Date())`: the first occurrence
strictly after the current instant. -/
structure TaskM where
  id : String
  occs : List Int
deriving DecidableEq, Repr

/-- `Task.nextDate` as read by the scheduler at instant `now`. -/
def TaskM.nextDate (t : TaskM) (now : Int) : Option Int :=
  afterList t.occs now

/-- A live `setTimeout` registration: its handle, the task object captured by
the `_handleTimeout` closure, and the instant it is due
(`setTimeout(.., date - Date.now())` at arming time). -/
structure TimerM where
  handle : Nat
  task : TaskM
  fireAt : Int
deriving DecidableEq, Repr

/-- Observable events, in execution order: a timer armed for a task, and a
task handler invoked for an occurrence. -/
inductive Ev
  | armed (taskId : String) (handle : Nat) (fireAt : Int)
  | invoked (taskId : String) (fireAt : Int)
deriving DecidableEq, Repr

/-- `XPScheduler`'s state (src/lib/index.js lines 37-51): the task registry
(`tasks`), the timer-handle map (`timers`), the live timeouts themselves
(`pending` — the JS runtime's timer queue), the last poll timestamp
(`latest`), the poll `interval`, the current clock, a fresh-handle counter and
the event log. -/
structure Sched where
  tasks : List (String × TaskM)
  timers : List (String × Nat)
  pending : List TimerM
  latest : Int
  interval : Int
  now : Int
  nextHandle : Nat
  log : List Ev
deriving DecidableEq, Repr

/-- `_handleTask` (src lines 190-200): read `task.nextDate`; do nothing when
it is absent or beyond `latest + interval`; otherwise arm a one-shot timer due
at that date and store its handle in `timers[task.id]` — overwriting any
existing handle without `clearTimeout`, and with no check for an already armed
timer. -/
def handleTask (s : Sched) (t : TaskM) : Sched :=
  match t.nextDate s.now with
  | none => s
  | some date =>
    if s.latest + s.interval < date then s
    else
      { s with
        pending := s.pending ++ [⟨s.nextHandle, t, date⟩]
        timers := insertL s.timers t.id s.nextHandle
        nextHandle := s.nextHandle + 1
        log := s.log ++ [.armed t.id s.nextHandle date] }

/-- JS `clearTimeout(h)`: the pending timer with handle `h` is cancelled. -/
def clearT (s : Sched) (h : Nat) : Sched :=
  { s with pending := s.pending.filter (fun tm => !(decide (tm.handle = h))) }

/-- The state mutation of `remove` (src lines 62-79) for a well-formed id:
`if (this.timers[id]) clearTimeout(this.timers[id]);
delete this.tasks[id]; delete this.timers[id];`  (Node timeout handles are
objects, hence truthy whenever present.) -/
def removeE (s : Sched) (id : String) : Sched :=
  let s1 :=
    match lookupL s.timers id with
    | some h => clearT s h
    | none => s
  { s1 with tasks := eraseL s1.tasks id, timers := eraseL s1.timers id }

/-- The full `remove` call (src lines 62-79) with its id assertion
(`XP.isString(id, true)`: a non-empty string) and its callback result: on
success the callback always receives `(null, null)` — the second argument is
modelled as `(none : Option Bool)`, the boolean the claim expects never being
present. -/
def removeCall (s : Sched) (id : String) : Sched × Except VErr (Option Bool) :=
  if id = "" then (s, .error ⟨"id", "string"⟩)
  else (removeE s id, .ok none)

/-- `_handleTimeout` (src lines 203-210), run when an armed timer fires: the
timeout is consumed by the runtime, then `this._handleTask(task)` re-arms
(window computed from the stored `latest`, which is not refreshed), and only
then `task.handler()` runs — so the invocation is logged after any arming
event.  The closure holds the task object captured at arming time. -/
def fireE (s : Sched) (tm : TimerM) : Sched :=
  let s0 := { s with pending := s.pending.filter (fun x => !(decide (x.handle = tm.handle))) }
  let s1 := handleTask s0 tm.task
  { s1 with log := s1.log ++ [.invoked tm.task.id tm.fireAt] }

/-- `_handlePoll` (src lines 180-187): set `latest = Date.now()`, then run
`_handleTask` over the registry in iteration order. -/
def pollE (s : Sched) : Sched :=
  let s0 := { s with latest := s.now }
  s0.tasks.foldl (fun acc p => handleTask acc p.2) s0

/-- The success path of `schedule` (src lines 101-127) once the task object
exists: `this.remove(task.id)`, then `this.tasks[task.id] = task`, then
`this._handleTask(task)`. -/
def scheduleE (s : Sched) (t : TaskM) : Sched :=
  let s1 := removeE s t.id
  let s2 := { s1 with tasks := insertL s1.tasks t.id t }
  handleTask s2 t

/-- The full `schedule` call (src lines 101-127): construct the task (its
validation may fail), remove any previous task with the same id (the embedded
`remove` includes its id assertion), register, arm.  `sem` abstracts the
built rule's occurrence list (the external rrule semantics).  On any error the
waterfall's error branch runs `callback(error)` and the state is untouched. -/
def scheduleCall (sem : RRuleOptions → List Int) (s : Sched) (ctime : Int)
    (genId : String) (o : TaskOptions) : Sched × Except VErr TaskModel :=
  match Task.make ctime genId o with
  | .error e => (s, .error e)
  | .ok t =>
    if t.id = "" then (s, .error ⟨"id", "string"⟩)
    else (scheduleE s ⟨t.id, sem t.adaptee⟩, .ok t)

/-- One event of the single-threaded execution: the clock advances, a due poll
tick runs (`setInterval` with period `interval`), a due armed timer fires, or
a caller invokes `schedule`/`remove` with a well-formed id.  Events due at the
same instant may run in either order, as on the JS event loop. -/
inductive Step : Sched → Sched → Prop
  | advance (s : Sched) (d : Int) (hd : 0 < d) : Step s { s with now := s.now + d }
  | poll (s : Sched) (hp : s.latest + s.interval ≤ s.now) : Step s (pollE s)
  | fire (s : Sched) (tm : TimerM) (hm : tm ∈ s.pending) (hdue : tm.fireAt ≤ s.now) :
      Step s (fireE s tm)
  | sched (s : Sched) (t : TaskM) (hid : t.id ≠ "") : Step s (scheduleE s t)
  | rem (s : Sched) (id : String) (hid : id ≠ "") : Step s (removeE s id)

/-- The scheduler's constructor state (src lines 37-51): empty registry and
timer map, `latest = Date.now()`, the validated polling interval. -/
def Sched.start (interval now : Int) : Sched :=
  ⟨[], [], [], now, interval, now, 0, []⟩

/-- States reachable from a freshly constructed scheduler. -/
inductive Reachable : Sched → Prop
  | start (interval now : Int) (h : 0 < interval) : Reachable (Sched.start interval now)
  | step {s s' : Sched} : Reachable s → Step s s' → Reachable s'

/-- Execution invariant: the poll interval is positive, the clock is never
behind the last poll, every armed timer is due within the current look-ahead
window, and all issued handles are below the allocation counter. -/
def SchedInv (s : Sched) : Prop :=
  0 < s.interval ∧ s.latest ≤ s.now ∧
  (∀ tm ∈ s.pending, tm.fireAt ≤ s.latest + s.interval) ∧
  (∀ tm ∈ s.pending, tm.handle < s.nextHandle) ∧
  (∀ p ∈ s.timers, p.2 < s.nextHandle)

instance (s : Sched) : Decidable (SchedInv s) := by
  unfold SchedInv; infer_instance

/-- JS setter pattern `XP.isDefined(this.f) ? this.f : val`: the stored field
is `none` while still unassigned (JS `undefined`); the first write sticks.
All setters are total functions: a later write is ignored and raises no
error. -/
def setIfUndefined (cur : Option α) (val : α) : Option α :=
  match cur with
  | some c => some c
  | none => some val

/-- JS setter pattern `this.f || val`: the current value is kept when
truthy. -/
def setIfFalsy (truthy : α → Bool) (cur : Option α) (val : α) : Option α :=
  match cur with
  | some c => if truthy c then some c else some val
  | none => some val

/-- `Task.endDate` setter (src lines 306-309); assigned values are `null` or
a date. -/
def endDateSet (cur : Option (Option Int)) (val : Option Int) : Option (Option Int) :=
  setIfUndefined cur val

/-- `Task.frequency` setter (src lines 342-345): `this.frequency || val`;
strings are truthy when non-empty. -/
def frequencySet (cur : Option String) (val : String) : Option String :=
  setIfFalsy (fun s => !(decide (s = ""))) cur val

/-- `Task.interval` setter (src lines 353-356). -/
def intervalSet (cur : Option (Option Int)) (val : Option Int) : Option (Option Int) :=
  setIfUndefined cur val

/-- `Task.iterations` setter (src lines 364-367). -/
def iterationsSet (cur : Option (Option Int)) (val : Option Int) : Option (Option Int) :=
  setIfUndefined cur val

/-- `Task.month` setter (src lines 375-378). -/
def monthSet (cur : Option (Option Int)) (val : Option Int) : Option (Option Int) :=
  setIfUndefined cur val

/-- `Task.monthDay` setter (src lines 386-389). -/
def monthDaySet (cur : Option (Option Int)) (val : Option Int) : Option (Option Int) :=
  setIfUndefined cur val

/-- `Task.startDate` setter (src lines 408-411); the assigned value is always
a date. -/
def startDateSet (cur : Option Int) (val : Int) : Option Int :=
  setIfUndefined cur val

/-- `Task.startTime` setter (src lines 419-422). -/
def startTimeSet (cur : Option (Option TimeOfDay)) (val : Option TimeOfDay) :
    Option (Option TimeOfDay) :=
  setIfUndefined cur val

/-- `Task.week` setter (src lines 430-433). -/
def weekSet (cur : Option (Option String)) (val : Option String) : Option (Option String) :=
  setIfUndefined cur val

/-- `Task.weekDay` setter (src lines 441-444). -/
def weekDaySet (cur : Option (Option String)) (val : Option String) : Option (Option String) :=
  setIfUndefined cur val

/-- `Task.weekDays` setter (src lines 452-455): `this.weekDays || val`;
arrays are always truthy. -/
def weekDaysSet (cur : Option (List String)) (val : List String) : Option (List String) :=
  setIfFalsy (fun _ => true) cur val

/-- The scheduler `interval` setter (src lines 137-140): `this.interval ||
val`; numbers are truthy when non-zero. -/
def pollIntervalSet (cur : Option Int) (val : Int) : Option Int :=
  setIfFalsy (fun n => !(decide (n = 0))) cur val

/-- The older scheduler variant's state (src/unnamed/part_000): `scheduled`
maps an id to its timeout handle; `armed` is the runtime's timer queue. -/
structure SchedV0 where
  scheduled : List (String × Nat)
  armed : List Nat
deriving DecidableEq, Repr

/-- `unschedule` (src/unnamed/part_000 lines 135-145): assert the id, clear
the stored timeout if any, then `return delete this.scheduled[id]`.  JS
`delete` on a plain object's (configurable) property returns `true` even when
the property is absent, so the returned boolean is constantly `true`. -/
def unschedule (s : SchedV0) (id : String) : SchedV0 × Bool :=
  let s1 :=
    match lookupL s.scheduled id with
    | some h => { s with armed := s.armed.filter (fun x => !(decide (x = h))) }
    | none => s
  ({ s1 with scheduled := eraseL s1.scheduled id }, true)

/-- C1 trace: a one-shot task due at instant 50. -/
def c1task : TaskM := ⟨"a", [50]⟩

/-- C1 trace: the task scheduled on a fresh scheduler (interval 100, clock 0);
a timer (handle 0) is armed for instant 50. -/
def c1s1 : Sched := scheduleE (Sched.start 100 0) c1task

/-- C1 trace: the clock reaches instant 50. -/
def c1s2 : Sched := { c1s1 with now := c1s1.now + 50 }

/-- C1 trace: the armed timer fires; the task is exhausted, yet
`timers["a"]` still holds handle 0. -/
def c1s3 : Sched := fireE c1s2 ⟨0, c1task, 50⟩

/-- C2: options of a daily task capped at one iteration. -/
def c2opts : TaskOptions :=
  { frequency := some ("daily"), iterations := some 1, startDate := some 0 }

/-- C2 witness: options of a daily task capped at two iterations. -/
def c2wopts : TaskOptions :=
  { frequency := some ("daily"), iterations := some 2, startDate := some 0 }

/-- C2 witness: the task built from `c2wopts` (checked by `rfl`). -/
def c2wtask : TaskModel :=
  { id := "g", endDate := none, frequency := "daily", interval := none,
    iterations := some 2, month := none, monthDay := none, startDate := 0,
    startTime := none, week := none, weekDay := none, weekDays := [],
    adaptee :=
      { freq := "DAILY", interval := none, count := some 2,
        byweekday := .many [], bymonth := none, bymonthday := none,
        byhour := none, byminute := none, bysecond := none, bysetpos := none,
        dtstart := 0, untilMs := none } }

/-- C3 trace: a task with occurrences at 50 and 60. -/
def c3task : TaskM := ⟨"c", [50, 60]⟩

/-- C3 trace: the task scheduled on a fresh scheduler (interval 100, clock 0). -/
def c3s1 : Sched := scheduleE (Sched.start 100 0) c3task

/-- C3 trace: the clock reaches instant 50, when the armed timer is due. -/
def c3s2 : Sched := { c3s1 with now := c3s1.now + 50 }

/-- C4: a `precise` task at instant 1000 with a 09:30 start time and a
supplied `iterations` of 99. -/
def c4opts : TaskOptions :=
  { frequency := some ("precise"), iterations := some 99,
    startDate := some 1000, startTime := some ⟨9, 30, none⟩ }

/-- C4: the task built from `c4opts` (checked by `rfl`); note
`iterations = 1` despite the supplied 99. -/
def c4task : TaskModel :=
  { id := "g", endDate := none, frequency := "precise", interval := none,
    iterations := some 1, month := none, monthDay := none, startDate := 1000,
    startTime := some ⟨9, 30, none⟩, week := none, weekDay := none, weekDays := [],
    adaptee :=
      { freq := "YEARLY", interval := none, count := some 1,
        byweekday := .many [], bymonth := none, bymonthday := none,
        byhour := some 9, byminute := some 30, bysecond := none, bysetpos := none,
        dtstart := 1000, untilMs := none } }

/-- C5 witness: a scheduler with task "a" registered and its timer armed. -/
def c5s : Sched := scheduleE (Sched.start 100 0) ⟨"a", [50]⟩

/-- C6 witness task. -/
def c6task : TaskM := ⟨"a", [50]⟩

/-- C6: a scheduler on which id "a" is registered with an armed timer. -/
def c6present : Sched := scheduleE (Sched.start 100 0) c6task

/-- C7 trace: a task with occurrences at 100 and 150 (interval 100). -/
def c7task : TaskM := ⟨"b", [100, 150]⟩

/-- C7 trace: schedule on a fresh scheduler; handle 0 armed for instant 100. -/
def c7s1 : Sched := scheduleE (Sched.start 100 0) c7task

/-- C7 trace: the clock reaches 100 — the poll tick and the timer are both
due. -/
def c7s2 : Sched := { c7s1 with now := c7s1.now + 100 }

/-- C7 trace: the poll runs first (simultaneous deadlines may run in either
order): it arms handle 1 for instant 150 while handle 0 is still pending. -/
def c7s3 : Sched := pollE c7s2

/-- C7 trace: handle 0 fires: `_handleTask` arms handle 2, also for
instant 150 — two timers are now concurrently armed for task "b". -/
def c7s4 : Sched := fireE c7s3 ⟨0, c7task, 100⟩

/-- C7 trace: the clock reaches 150. -/
def c7s5 : Sched := { c7s4 with now := c7s4.now + 50 }

/-- C7 trace: handle 1 fires; the handler runs for occurrence 150. -/
def c7s6 : Sched := fireE c7s5 ⟨1, c7task, 150⟩

/-- C7 trace: handle 2 fires; the handler runs AGAIN for occurrence 150. -/
def c7s7 : Sched := fireE c7s6 ⟨2, c7task, 150⟩

/-- C9: options whose `month` is out of range. -/
def c9opts : TaskOptions := { frequency := some ("daily"), month := some 13 }

theorem find?_eraseL (m : List (String × α)) (k : String) :
    (eraseL m k).find? (fun p => decide (p.1 = k)) = none := by
  induction m with
  | nil => rfl
  | cons p m ih =>
    by_cases h : p.1 = k
    · simp [eraseL, List.filter_cons, h, ih]
    · simp [eraseL, List.filter_cons, List.find?, h, ih]

theorem lookupL_eraseL (m : List (String × α)) (k : String) :
    lookupL (eraseL m k) k = none := by
  simp [lookupL, find?_eraseL]

theorem lookupL_insertL_self (m : List (String × α)) (k : String) (v : α) :
    lookupL (insertL m k v) k = some v := by
  unfold insertL lookupL
  rw [List.find?_append, find?_eraseL]
  simp [List.find?]

theorem filter_eraseL (m : List (String × α)) (k : String) :
    (eraseL m k).filter (fun p => decide (p.1 = k)) = [] := by
  induction m with
  | nil => rfl
  | cons p m ih =>
    by_cases h : p.1 = k
    · simp [eraseL, List.filter_cons, h, ih]
    · simp [eraseL, List.filter_cons, h, ih]

theorem filter_insertL (m : List (String × α)) (k : String) (v : α) :
    (insertL m k v).filter (fun p => decide (p.1 = k)) = [(k, v)] := by
  unfold insertL
  rw [List.filter_append, filter_eraseL]
  simp

theorem eraseL_of_lookupL_none (m : List (String × α)) (k : String)
    (h : lookupL m k = none) : eraseL m k = m := by
  unfold lookupL at h
  rw [Option.map_eq_none'] at h
  rw [List.find?_eq_none] at h
  unfold eraseL
  rw [List.filter_eq_self]
  intro p hp
  simpa using h p hp

theorem schedInv_handleTask {s : Sched} (t : TaskM) (h : SchedInv s) :
    SchedInv (handleTask s t) := by
  obtain ⟨hI, hLN, hW, hH, hT⟩ := h
  unfold handleTask
  cases hnd : t.nextDate s.now with
  | none => exact ⟨hI, hLN, hW, hH, hT⟩
  | some date =>
    by_cases hgt : s.latest + s.interval < date
    · simp only [hgt, if_true]
      exact ⟨hI, hLN, hW, hH, hT⟩
    · simp only [hgt, if_false]
      refine ⟨hI, hLN, ?_, ?_, ?_⟩
      · intro tm hm
        rcases List.mem_append.mp hm with hm | hm
        · exact hW tm hm
        · simp at hm; subst hm; show date ≤ s.latest + s.interval; omega
      · intro tm hm
        rcases List.mem_append.mp hm with hm | hm
        · exact Nat.lt_succ_of_lt (hH tm hm)
        · simp at hm; subst hm; exact Nat.lt_succ_self _
      · intro p hp
        rcases List.mem_append.mp hp with hp | hp
        · exact Nat.lt_succ_of_lt (hT p (List.mem_of_mem_filter hp))
        · rw [List.mem_singleton] at hp
          subst hp
          exact Nat.lt_succ_self _

theorem schedInv_pollFold {l : List (String × TaskM)} {s : Sched} (h : SchedInv s) :
    SchedInv (l.foldl (fun acc p => handleTask acc p.2) s) := by
  induction l generalizing s with
  | nil => exact h
  | cons p l ih => exact ih (schedInv_handleTask p.2 h)

theorem schedInv_pollE {s : Sched} (h : SchedInv s) : SchedInv (pollE s) := by
  obtain ⟨hI, hLN, hW, hH, hT⟩ := h
  unfold pollE
  apply schedInv_pollFold
  refine ⟨hI, le_refl _, ?_, hH, hT⟩
  intro tm hm
  have := hW tm hm
  show tm.fireAt ≤ s.now + s.interval
  omega

theorem schedInv_fireE {s : Sched} (tm : TimerM) (h : SchedInv s) :
    SchedInv (fireE s tm) := by
  obtain ⟨hI, hLN, hW, hH, hT⟩ := h
  unfold fireE
  have h0 : SchedInv { s with
      pending := s.pending.filter (fun x => !(decide (x.handle = tm.handle))) } := by
    refine ⟨hI, hLN, ?_, ?_, hT⟩
    · intro x hx; exact hW x (List.mem_of_mem_filter hx)
    · intro x hx; exact hH x (List.mem_of_mem_filter hx)
  exact schedInv_handleTask tm.task h0

theorem schedInv_removeE {s : Sched} (id : String) (h : SchedInv s) :
    SchedInv (removeE s id) := by
  obtain ⟨hI, hLN, hW, hH, hT⟩ := h
  unfold removeE clearT
  cases hl : lookupL s.timers id with
  | some hd =>
    refine ⟨hI, hLN, ?_, ?_, ?_⟩ <;> intro x hx
    · exact hW x (List.mem_of_mem_filter hx)
    · exact hH x (List.mem_of_mem_filter hx)
    · exact hT x (List.mem_of_mem_filter hx)
  | none =>
    refine ⟨hI, hLN, hW, hH, ?_⟩
    intro x hx
    exact hT x (List.mem_of_mem_filter hx)

theorem schedInv_scheduleE {s : Sched} (t : TaskM) (h : SchedInv s) :
    SchedInv (scheduleE s t) := by
  have h1 := schedInv_removeE t.id h
  obtain ⟨hI, hLN, hW, hH, hT⟩ := h1
  refine schedInv_handleTask t ⟨hI, hLN, hW, hH, hT⟩

theorem schedInv_advance {s : Sched} {d : Int} (hd : 0 < d) (h : SchedInv s) :
    SchedInv { s with now := s.now + d } := by
  obtain ⟨hI, hLN, hW, hH, hT⟩ := h
  refine ⟨hI, ?_, hW, hH, hT⟩
  show s.latest ≤ s.now + d
  omega

theorem schedInv_step {s s' : Sched} (h : SchedInv s) (hs : Step s s') : SchedInv s' := by
  cases hs with
  | advance d hd => exact schedInv_advance hd h
  | poll hp => exact schedInv_pollE h
  | fire tm hm hdue => exact schedInv_fireE tm h
  | sched t hid => exact schedInv_scheduleE t h
  | rem id hid => exact schedInv_removeE id h

theorem reachable_schedInv {s : Sched} (h : Reachable s) : SchedInv s := by
  induction h with
  | start interval now hI =>
    refine ⟨hI, le_refl _, ?_, ?_, ?_⟩ <;> intro x hx <;> cases hx
  | step hr hs ih => exact schedInv_step ih hs

theorem Task.make_ok (ctime : Int) (genId : String) (o : TaskOptions) (t : TaskModel)
    (hmk : Task.make ctime genId o = .ok t) :
    t.frequency = jsOrStr o.frequency ("precise") ∧
    t.iterations =
      (if jsOrStr o.frequency ("precise") ≠ "precise" then orNullInt o.iterations
       else some 1) ∧
    t.adaptee.count = t.iterations ∧
    t.startDate = o.startDate.getD ctime ∧
    t.startTime = o.startTime ∧
    t.adaptee.untilMs = o.endDate ∧
    t.adaptee.dtstart = o.startDate.getD ctime := by
  unfold Task.make at hmk
  by_cases h1 : ((lookupL frequencies (jsOrStr o.frequency ("precise"))).isNone : Prop)
  · rw [if_pos h1] at hmk; exact (Except.noConfusion hmk)
  rw [if_neg h1] at hmk
  by_cases h2 : ((!(validPos (orNullInt o.interval)) : Bool) : Prop)
  · rw [if_pos h2] at hmk; exact (Except.noConfusion hmk)
  rw [if_neg h2] at hmk
  by_cases h3 : ((!(validPos (if jsOrStr o.frequency ("precise") ≠ "precise"
      then orNullInt o.iterations else some 1)) : Bool) : Prop)
  · rw [if_pos h3] at hmk; exact (Except.noConfusion hmk)
  rw [if_neg h3] at hmk
  by_cases h4 : ((!(validRange 1 12 (orNullInt o.month)) : Bool) : Prop)
  · rw [if_pos h4] at hmk; exact (Except.noConfusion hmk)
  rw [if_neg h4] at hmk
  by_cases h5 : ((!(validRange 1 31 (orNullInt o.monthDay)) : Bool) : Prop)
  · rw [if_pos h5] at hmk; exact (Except.noConfusion hmk)
  rw [if_neg h5] at hmk
  by_cases h6 : ((!(validTime o.startTime) : Bool) : Prop)
  · rw [if_pos h6] at hmk; exact (Except.noConfusion hmk)
  rw [if_neg h6] at hmk
  by_cases h7 : ((!((orNullStr o.week).all (fun w => (lookupL weeks w).isSome)) : Bool) : Prop)
  · rw [if_pos h7] at hmk; exact (Except.noConfusion hmk)
  rw [if_neg h7] at hmk
  by_cases h8 : ((!((orNullStr o.weekDay).all (fun d => (lookupL days d).isSome)) : Bool) : Prop)
  · rw [if_pos h8] at hmk; exact (Except.noConfusion hmk)
  rw [if_neg h8] at hmk
  by_cases h9 : ((!((o.weekDays.getD []).all (fun d => (lookupL days d).isSome)) : Bool) : Prop)
  · rw [if_pos h9] at hmk; exact (Except.noConfusion hmk)
  rw [if_neg h9] at hmk
  cases hmk
  exact ⟨rfl, rfl, rfl, rfl, rfl, rfl, rfl⟩

/-- C10: frequency `precise` is the yearly frequency with the iteration count
forced to 1 — for every options object and construction instant, building a
task with `frequency = "precise"` (whatever `iterations` the options carry)
yields exactly the same rrule argument record (`adaptee`), and the same
validation outcome, as building one with `frequency = "yearly"` and
`iterations = 1` and all other fields equal; identical rrule arguments give
identical `nextAfter` results. -/
theorem C10_precise_is_yearly_once (ctime : Int) (genId : String) (o : TaskOptions) :
    (Task.make ctime genId { o with frequency := some ("precise") }).map
        (fun t => t.adaptee) =
    (Task.make ctime genId
        { o with frequency := some ("yearly"), iterations := some 1 }).map
        (fun t => t.adaptee) := by
  have e1 : jsOrStr (some ("precise")) ("precise") = "precise" := rfl
  have e2 : jsOrStr (some ("yearly")) ("precise") = "yearly" := rfl
  have e3 : lookupL frequencies ("precise") = some ("YEARLY") := rfl
  have e4 : lookupL frequencies ("yearly") = some ("YEARLY") := rfl
  have e5 : orNullInt (some 1) = some 1 := rfl
  have e6 : validPos (some 1) = true := rfl
  unfold Task.make
  simp [e1, e2, e3, e4, e5, e6]
  split_ifs <;> rfl

/-- C9: for every options object that fails task validation, `schedule`
reports the validation error (which names the offending field and expected
type) through its callback and returns the scheduler state — registry, timer
map, armed timers — entirely unchanged: the task is never registered and no
timer is armed. -/
theorem C9_validation_leaves_state (sem : RRuleOptions → List Int) (s : Sched)
    (ctime : Int) (genId : String) (o : TaskOptions) (e : VErr)
    (hmk : Task.make ctime genId o = .error e) :
    scheduleCall sem s ctime genId o = (s, .error e) := by
  unfold scheduleCall
  rw [hmk]

theorem C9_witness :
    Task.make 0 ("g") c9opts = .error ⟨"month", "number"⟩ ∧
    scheduleCall (fun _ => []) (Sched.start 60000 0) 0 ("g") c9opts =
      (Sched.start 60000 0, .error ⟨"month", "number"⟩) :=
  ⟨rfl, C9_validation_leaves_state (fun _ => []) (Sched.start 60000 0) 0 ("g")
    c9opts ⟨"month", "number"⟩ rfl⟩

/-- C8: every recurrence field of a task (`endDate`, `frequency`, `interval`,
`iterations`, `month`, `monthDay`, `startDate`, `startTime`, `week`,
`weekDay`, `weekDays`) and the scheduler's `interval` is set-once: after the
first assignment, a later assignment leaves the stored value unchanged (the
setters are total functions, so no error is raised).  The truthiness
hypotheses reflect the `||`-based setters: a first-assigned frequency is a
non-empty string and a first-assigned poll interval is non-zero, which
validation guarantees in the sources. -/
theorem C8_set_once (e1 e2 : Option Int) (f1 f2 : String) (i1 i2 : Option Int)
    (n1 n2 : Option Int) (m1 m2 : Option Int) (d1 d2 : Option Int) (sd1 sd2 : Int)
    (st1 st2 : Option TimeOfDay) (w1 w2 : Option String) (wd1 wd2 : Option String)
    (ws1 ws2 : List String) (p1 p2 : Int)
    (hf : f1 ≠ "") (hp : p1 ≠ 0) :
    endDateSet (endDateSet none e1) e2 = endDateSet none e1 ∧
    frequencySet (frequencySet none f1) f2 = frequencySet none f1 ∧
    intervalSet (intervalSet none i1) i2 = intervalSet none i1 ∧
    iterationsSet (iterationsSet none n1) n2 = iterationsSet none n1 ∧
    monthSet (monthSet none m1) m2 = monthSet none m1 ∧
    monthDaySet (monthDaySet none d1) d2 = monthDaySet none d1 ∧
    startDateSet (startDateSet none sd1) sd2 = startDateSet none sd1 ∧
    startTimeSet (startTimeSet none st1) st2 = startTimeSet none st1 ∧
    weekSet (weekSet none w1) w2 = weekSet none w1 ∧
    weekDaySet (weekDaySet none wd1) wd2 = weekDaySet none wd1 ∧
    weekDaysSet (weekDaysSet none ws1) ws2 = weekDaysSet none ws1 ∧
    pollIntervalSet (pollIntervalSet none p1) p2 = pollIntervalSet none p1 := by
  refine ⟨rfl, ?_, rfl, rfl, rfl, rfl, rfl, rfl, rfl, rfl, rfl, ?_⟩
  · simp [frequencySet, setIfFalsy, hf]
  · simp [pollIntervalSet, setIfFalsy, hp]

theorem C8_witness :
    (("daily" : String) ≠ "") ∧ ((60000 : Int) ≠ 0) ∧
    (endDateSet (endDateSet none (some 5)) none = endDateSet none (some 5) ∧
     frequencySet (frequencySet none ("daily")) ("weekly") = frequencySet none ("daily") ∧
     intervalSet (intervalSet none (some 2)) (some 3) = intervalSet none (some 2) ∧
     iterationsSet (iterationsSet none (some 4)) none = iterationsSet none (some 4) ∧
     monthSet (monthSet none (some 6)) (some 7) = monthSet none (some 6) ∧
     monthDaySet (monthDaySet none (some 8)) (some 9) = monthDaySet none (some 8) ∧
     startDateSet (startDateSet none 10) 11 = startDateSet none 10 ∧
     startTimeSet (startTimeSet none (some ⟨1, 2, none⟩)) none =
       startTimeSet none (some ⟨1, 2, none⟩) ∧
     weekSet (weekSet none (some ("first"))) none = weekSet none (some ("first")) ∧
     weekDaySet (weekDaySet none (some ("mo"))) (some ("tu")) =
       weekDaySet none (some ("mo")) ∧
     weekDaysSet (weekDaysSet none [("mo")]) [("tu")] = weekDaysSet none [("mo")] ∧
     pollIntervalSet (pollIntervalSet none 60000) 5 = pollIntervalSet none 60000) :=
  ⟨by decide, by decide,
    C8_set_once (some 5) none ("daily") ("weekly") (some 2) (some 3) (some 4) none
      (some 6) (some 7) (some 8) (some 9) 10 11 (some ⟨1, 2, none⟩) none
      (some ("first")) none (some ("mo")) (some ("tu")) [("mo")] [("tu")] 60000 5
      (by decide) (by decide)⟩

/-- C2 counterexample: the claim predicts that for a non-precise rule with
`iterations = N` the (N+1)-th call to `nextDate` returns none regardless of
the instants.  The daily rule below has `iterations = 1` (so `count = 1`, a
single occurrence at instant 0); two successive calls made at instant -5 both
return that occurrence, so the second (= (N+1)-th) call is not none: the rule
keeps no call state — `nextDate` is a pure query of the clock. -/
theorem C2_counterexample :
    (Task.make 0 ("g") c2opts).map (fun t => t.adaptee.count) = .ok (some 1) ∧
    callResults (cappedOccurrences 0 86400000 1 none) [-5, -5] = [some 0, some 0] ∧
    (some (0 : Int) ≠ (none : Option Int)) :=
  ⟨rfl, rfl, by decide⟩

/-- C2 (amended): for a non-precise frequency the built rule's `count` is the
supplied iterations (src line 259); under the spec-modelled rrule semantics
that cap bounds the TOTAL occurrence set at `n`, and `nextAfter` is a pure
function of the instant: it returns none exactly when no capped occurrence
lies strictly beyond it.  Hence the (N+1)-th call returns none when made at
or after the last occurrence — not regardless of the instants at which the
calls are made. -/
theorem C2_iteration_cap (ctime : Int) (genId : String) (o : TaskOptions)
    (t : TaskModel) (dtstart step t1 : Int) (n : Nat) (u : Option Int)
    (hfreq : jsOrStr o.frequency ("precise") ≠ "precise")
    (hmk : Task.make ctime genId o = .ok t)
    (hall : ∀ d ∈ cappedOccurrences dtstart step n u, d ≤ t1) :
    t.adaptee.count = orNullInt o.iterations ∧
    (cappedOccurrences dtstart step n u).length ≤ n ∧
    afterList (cappedOccurrences dtstart step n u) t1 = none := by
  obtain ⟨-, hit, hcnt, -, -, -, -⟩ := Task.make_ok ctime genId o t hmk
  refine ⟨?_, ?_, ?_⟩
  · rw [hcnt, hit, if_pos hfreq]
  · calc (cappedOccurrences dtstart step n u).length
        ≤ ((List.range n).map (fun (k : Nat) => dtstart + step * (k : Int))).length :=
          List.length_filter_le _ _
      _ = n := by rw [List.length_map, List.length_range]
  · have hnil : (cappedOccurrences dtstart step n u).filter
        (fun d => decide (t1 < d)) = [] := by
      rw [List.filter_eq_nil_iff]
      intro d hd
      simpa using not_lt.mpr (hall d hd)
    simp [afterList, hnil]

theorem C2_witness :
    c2wtask.adaptee.count = orNullInt c2wopts.iterations ∧
    (cappedOccurrences 0 86400000 2 none).length ≤ 2 ∧
    afterList (cappedOccurrences 0 86400000 2 none) 86400001 = none :=
  C2_iteration_cap 0 ("g") c2wopts c2wtask 0 86400000 86400001 2 none
    (by decide) rfl (by decide)

/-- C4: with `frequency = "precise"` the constructed rule's iteration count is
1 regardless of any supplied `iterations` (src line 259: the option is not
even read), and — under the spec-modelled rrule semantics, provided the
adjusted start does not precede `startDate`'s instant or exceed `endDate` —
`nextAfter` yields exactly one occurrence, namely `startDate` with its
time-of-day replaced by `startTime` when given, before that occurrence, and
none at or after it. -/
theorem C4_precise_single (ctime : Int) (genId : String) (o : TaskOptions)
    (t : TaskModel) (t1 t2 : Int)
    (hfreq : jsOrStr o.frequency ("precise") = "precise")
    (hmk : Task.make ctime genId o = .ok t)
    (hu : ∀ u ∈ t.adaptee.untilMs, adjustedStart t.startDate t.startTime ≤ u)
    (hb : t1 < adjustedStart t.startDate t.startTime)
    (ha : adjustedStart t.startDate t.startTime ≤ t2) :
    t.iterations = some 1 ∧
    t.adaptee.count = some 1 ∧
    preciseOccs t = [adjustedStart t.startDate t.startTime] ∧
    afterList (preciseOccs t) t1 = some (adjustedStart t.startDate t.startTime) ∧
    afterList (preciseOccs t) t2 = none := by
  obtain ⟨-, hit, hcnt, -, -, -, -⟩ := Task.make_ok ctime genId o t hmk
  have hit1 : t.iterations = some 1 := by
    rw [hit, if_neg]
    simp [hfreq]
  have hocc : preciseOccs t = [adjustedStart t.startDate t.startTime] := by
    unfold preciseOccs
    cases huntil : t.adaptee.untilMs with
    | none => simp
    | some u =>
      have hle := hu u (by simp [huntil])
      simp [hle]
  have hnot : ¬ (t2 < adjustedStart t.startDate t.startTime) := not_lt.mpr ha
  refine ⟨hit1, by rw [hcnt, hit1], hocc, ?_, ?_⟩
  · rw [hocc]; simp [afterList, hb]
  · rw [hocc]; simp [afterList, hnot]

theorem C4_witness :
    c4task.iterations = some 1 ∧
    c4task.adaptee.count = some 1 ∧
    preciseOccs c4task = [adjustedStart c4task.startDate c4task.startTime] ∧
    afterList (preciseOccs c4task) 0 =
      some (adjustedStart c4task.startDate c4task.startTime) ∧
    afterList (preciseOccs c4task) 34200000 = none :=
  C4_precise_single 0 ("g") c4opts c4task 0 34200000 rfl rfl
    (fun u hu => by cases hu) (by decide) (by decide)

theorem lookupL_mem {m : List (String × α)} {k : String} {v : α}
    (h : lookupL m k = some v) : (k, v) ∈ m := by
  unfold lookupL at h
  cases hf : m.find? (fun p => decide (p.1 = k)) with
  | none => rw [hf] at h; cases h
  | some p =>
    rw [hf] at h
    have hm := List.mem_of_find?_eq_some hf
    have hp := List.find?_some hf
    simp at h hp
    obtain ⟨pa, pb⟩ := p
    simp at h hp
    rw [hp, h] at hm
    exact hm

theorem removeE_parts (s : Sched) (id : String) :
    (removeE s id).tasks = eraseL s.tasks id ∧
    (removeE s id).timers = eraseL s.timers id ∧
    (removeE s id).nextHandle = s.nextHandle ∧
    (removeE s id).latest = s.latest ∧
    (removeE s id).interval = s.interval ∧
    (removeE s id).now = s.now ∧
    (removeE s id).pending =
      (match lookupL s.timers id with
       | some h => s.pending.filter (fun x => !(decide (x.handle = h)))
       | none => s.pending) := by
  unfold removeE clearT
  cases lookupL s.timers id <;> exact ⟨rfl, rfl, rfl, rfl, rfl, rfl, rfl⟩

theorem handleTask_tasks (s : Sched) (t : TaskM) : (handleTask s t).tasks = s.tasks := by
  unfold handleTask
  cases t.nextDate s.now with
  | none => rfl
  | some date => by_cases h : s.latest + s.interval < date <;> simp [h]

theorem handleTask_cases (s : Sched) (t : TaskM) :
    match t.nextDate s.now with
    | none => handleTask s t = s
    | some date =>
      if s.latest + s.interval < date then handleTask s t = s
      else (handleTask s t).pending = s.pending ++ [⟨s.nextHandle, t, date⟩] ∧
           (handleTask s t).timers = insertL s.timers t.id s.nextHandle ∧
           (handleTask s t).tasks = s.tasks ∧
           (handleTask s t).nextHandle = s.nextHandle + 1 := by
  unfold handleTask
  cases hnd : t.nextDate s.now with
  | none => rfl
  | some date =>
    by_cases h : s.latest + s.interval < date
    · simp [h]
    · simp [h]

theorem handleTask_pending_mem {s : Sched} {t : TaskM} {x : TimerM}
    (hx : x ∈ (handleTask s t).pending) : x ∈ s.pending ∨ x.handle = s.nextHandle := by
  revert hx
  unfold handleTask
  cases t.nextDate s.now with
  | none => exact fun hx => Or.inl hx
  | some date =>
    by_cases h : s.latest + s.interval < date
    · simp [h]
      exact fun hx => Or.inl hx
    · simp [h]
      intro hx
      rcases hx with hx | hx
      · exact Or.inl hx
      · subst hx
        exact Or.inr rfl

/-- C6 counterexample: `remove`'s callback result is `(null, null)` whether or
not the id is registered — the call never reports "whether an entry existed"
(both results are the same `null`) — and the older variant's `unschedule`
returns `true` even for an absent id, because JS `delete` yields `true` on
absent keys; neither returns a "not found" signal. -/
theorem C6_counterexample :
    lookupL (Sched.start 100 0).tasks ("a") = none ∧
    lookupL c6present.tasks ("a") = some c6task ∧
    (removeCall (Sched.start 100 0) ("a")).2 = .ok none ∧
    (removeCall c6present ("a")).2 = .ok none ∧
    (removeCall (Sched.start 100 0) ("a")).2 = (removeCall c6present ("a")).2 ∧
    (unschedule ⟨[], []⟩ ("a")).2 = true :=
  ⟨rfl, rfl, rfl, rfl, rfl, rfl⟩

/-- C6 (amended): for a well-formed (non-empty) id, `remove` cancels the
timer referenced by the timer map, deletes the registry and timer-map entries
if present, raises no error, and always reports success with a `null` result
carrying no information about whether an entry existed; on an id with no
registry or map entry the state is left entirely unchanged. -/
theorem C6_remove_null_result (s : Sched) (id : String) (hid : id ≠ "") :
    (removeCall s id).2 = .ok none ∧
    lookupL (removeCall s id).1.tasks id = none ∧
    lookupL (removeCall s id).1.timers id = none ∧
    (match lookupL s.timers id with
     | some hd => ∀ tm ∈ (removeCall s id).1.pending, tm.handle ≠ hd
     | none => True) ∧
    (lookupL s.tasks id = none → lookupL s.timers id = none →
      (removeCall s id).1 = s) := by
  have hcall : removeCall s id = (removeE s id, .ok none) := by
    unfold removeCall
    rw [if_neg hid]
  rw [hcall]
  obtain ⟨ht, hm, -, -, -, -, hp⟩ := removeE_parts s id
  refine ⟨rfl, ?_, ?_, ?_, ?_⟩
  · rw [ht]; exact lookupL_eraseL _ _
  · rw [hm]; exact lookupL_eraseL _ _
  · cases hl : lookupL s.timers id with
    | some hd =>
      intro tm htm
      rw [hp, hl] at htm
      have := (List.mem_filter.mp htm).2
      simpa using this
    | none => trivial
  · intro hta hti
    unfold removeE
    rw [hti]
    show { s with tasks := eraseL s.tasks id, timers := eraseL s.timers id } = s
    rw [eraseL_of_lookupL_none _ _ hta, eraseL_of_lookupL_none _ _ hti]

theorem C6_witness :
    (removeCall c6present ("a")).2 = .ok none ∧
    lookupL (removeCall c6present ("a")).1.tasks ("a") = none ∧
    lookupL (removeCall c6present ("a")).1.timers ("a") = none ∧
    (match lookupL c6present.timers ("a") with
     | some hd => ∀ tm ∈ (removeCall c6present ("a")).1.pending, tm.handle ≠ hd
     | none => True) ∧
    (lookupL c6present.tasks ("a") = none → lookupL c6present.timers ("a") = none →
      (removeCall c6present ("a")).1 = c6present) :=
  C6_remove_null_result c6present ("a") (by decide)

/-- C3 (amended): when an armed timer fires, `_handleTimeout` FIRST re-queries
the task's next occurrence and re-arms a timer when that occurrence is
defined and within the window computed from the last recorded `latest` (the
fire refreshes neither `latest` nor the clock), and only AFTERWARDS invokes
the task's handler: the log gains the arming event, when there is one, before
the invocation event; when the occurrence is absent or beyond the window the
task is left dormant (no arming) until the next poll tick. -/
theorem C3_rearm_before_handler (s : Sched) (tm : TimerM) :
    (fireE s tm).log =
      s.log ++
      (match tm.task.nextDate s.now with
       | none => []
       | some date =>
         if s.latest + s.interval < date then []
         else [Ev.armed tm.task.id s.nextHandle date]) ++
      [Ev.invoked tm.task.id tm.fireAt] ∧
    (fireE s tm).latest = s.latest ∧
    (fireE s tm).now = s.now := by
  unfold fireE handleTask
  cases hnd : tm.task.nextDate s.now with
  | none => simp [hnd]
  | some date => by_cases h : s.latest + s.interval < date <;> simp [hnd, h]

/-- C3 counterexample: a reachable fire at which the log records the re-arm
(`armed`, handle 1) strictly BEFORE the handler invocation, while the claim
demands the handler be invoked first and the re-query only afterwards; the
two orders are observably different logs. -/
theorem C3_counterexample :
    Reachable (fireE c3s2 ⟨0, c3task, 50⟩) ∧
    (fireE c3s2 ⟨0, c3task, 50⟩).log =
      [Ev.armed ("c") 0 50, Ev.armed ("c") 1 60, Ev.invoked ("c") 50] ∧
    ([Ev.armed ("c") 1 60, Ev.invoked ("c") 50] ≠
     [Ev.invoked ("c") 50, Ev.armed ("c") 1 60]) := by
  refine ⟨?_, by decide, by decide⟩
  exact Reachable.step (Reachable.step (Reachable.step
      (Reachable.start 100 0 (by decide))
      (Step.sched _ c3task (by decide)))
      (Step.advance _ 50 (by decide)))
    (Step.fire _ ⟨0, c3task, 50⟩ (by decide) (by decide))

theorem c1reach : Reachable c1s3 :=
  Reachable.step (Reachable.step (Reachable.step
      (Reachable.start 100 0 (by decide))
      (Step.sched _ c1task (by decide)))
      (Step.advance _ 50 (by decide)))
    (Step.fire _ ⟨0, c1task, 50⟩ (by decide) (by decide))

/-- C1 counterexample: a reachable state — the armed timer of the registered,
now exhausted task "a" has fired — in which `timers["a"]` still holds
handle 0 (a fire never deletes the map entry) while the task's next
occurrence is undefined and no timer is armed: a timer handle is present in
the timers map although `nextOccurrence` is neither defined nor within
`[latest, latest + interval]`, refuting the claimed "iff" and in particular
the clause that an exhausted task has no timer-map handle. -/
theorem C1_counterexample :
    Reachable c1s3 ∧
    lookupL c1s3.tasks ("a") = some c1task ∧
    lookupL c1s3.timers ("a") = some 0 ∧
    c1task.nextDate c1s3.now = none ∧
    c1s3.pending = [] :=
  ⟨c1reach, rfl, rfl, rfl, rfl⟩

/-- C1 (amended): in every reachable state every ARMED timer is due within
the look-ahead window (`fireAt ≤ latest + interval`) — so a task whose next
occurrence lies beyond `latest + interval` never gets a timer armed — and
`remove` deletes a task's registry and timer-map entries and cancels the
map-referenced timer.  Only the sound half of the claimed "iff" survives:
a fired timer's handle is never deleted from the map (counterexample), so
map presence implies neither an armed timer nor an in-window occurrence. -/
theorem C1_armed_in_window (s : Sched) (id : String) (h : Reachable s) :
    (∀ tm ∈ s.pending, tm.fireAt ≤ s.latest + s.interval) ∧
    lookupL (removeE s id).tasks id = none ∧
    lookupL (removeE s id).timers id = none ∧
    (match lookupL s.timers id with
     | some hd => ∀ tm ∈ (removeE s id).pending, tm.handle ≠ hd
     | none => True) := by
  obtain ⟨-, -, hW, -, -⟩ := reachable_schedInv h
  obtain ⟨ht, hm, -, -, -, -, hp⟩ := removeE_parts s id
  refine ⟨hW, ?_, ?_, ?_⟩
  · rw [ht]; exact lookupL_eraseL _ _
  · rw [hm]; exact lookupL_eraseL _ _
  · cases hl : lookupL s.timers id with
    | some hd =>
      intro tm htm
      rw [hp, hl] at htm
      simpa using (List.mem_filter.mp htm).2
    | none => trivial

theorem C1_witness :
    (∀ tm ∈ c1s3.pending, tm.fireAt ≤ c1s3.latest + c1s3.interval) ∧
    lookupL (removeE c1s3 ("a")).tasks ("a") = none ∧
    lookupL (removeE c1s3 ("a")).timers ("a") = none ∧
    (match lookupL c1s3.timers ("a") with
     | some hd => ∀ tm ∈ (removeE c1s3 ("a")).pending, tm.handle ≠ hd
     | none => True) :=
  C1_armed_in_window c1s3 ("a") c1reach

/-- C5: a successful `schedule` whose task reuses a registered id replaces
the prior task: afterwards exactly one registry entry for that id remains and
it holds the newly constructed task, and the prior task's armed timer — the
handle stored in the timer map — is cancelled by the embedded `remove` and is
not the freshly armed one.  `SchedInv` holds in every reachable state by
`reachable_schedInv`. -/
theorem C5_schedule_replaces (s : Sched) (t old : TaskM) (hinv : SchedInv s)
    (hreg : lookupL s.tasks t.id = some old) :
    lookupL (scheduleE s t).tasks t.id = some t ∧
    ((scheduleE s t).tasks.filter (fun p => decide (p.1 = t.id))).length = 1 ∧
    (match lookupL s.timers t.id with
     | some hd => ∀ tm ∈ (scheduleE s t).pending, tm.handle ≠ hd
     | none => True) := by
  obtain ⟨-, -, -, -, hT⟩ := hinv
  obtain ⟨hrt, hrm, hrh, -, -, -, hrp⟩ := removeE_parts s t.id
  have htasks : (scheduleE s t).tasks = insertL (removeE s t.id).tasks t.id t := by
    unfold scheduleE
    rw [handleTask_tasks]
  refine ⟨?_, ?_, ?_⟩
  · rw [htasks]; exact lookupL_insertL_self _ _ _
  · rw [htasks, hrt, filter_insertL]
    rfl
  · cases hl : lookupL s.timers t.id with
    | some hd =>
      have hhd : hd < s.nextHandle := hT (t.id, hd) (lookupL_mem hl)
      intro tm htm
      rw [show scheduleE s t = handleTask { removeE s t.id with
          tasks := insertL (removeE s t.id).tasks t.id t } t from rfl] at htm
      rcases handleTask_pending_mem htm with hmem | hmem
      · have htm2 : tm ∈ (removeE s t.id).pending := hmem
        rw [hrp, hl] at htm2
        simpa using (List.mem_filter.mp htm2).2
      · rw [hmem]
        rw [show ({ removeE s t.id with
            tasks := insertL (removeE s t.id).tasks t.id t } : Sched).nextHandle =
            (removeE s t.id).nextHandle from rfl, hrh]
        omega
    | none => trivial

theorem C5_witness :
    lookupL (scheduleE c5s ⟨"a", [60]⟩).tasks ("a") = some ⟨"a", [60]⟩ ∧
    ((scheduleE c5s ⟨"a", [60]⟩).tasks.filter (fun p => decide (p.1 = "a"))).length = 1 ∧
    (match lookupL c5s.timers ("a") with
     | some hd => ∀ tm ∈ (scheduleE c5s ⟨"a", [60]⟩).pending, tm.handle ≠ hd
     | none => True) :=
  C5_schedule_replaces c5s ⟨"a", [60]⟩ ⟨"a", [50]⟩ (by decide) (by decide)

/-- C7 (amended): `_handleTask` — and hence every poll tick, which runs it on
every registered task — arms a fresh one-shot timer whenever the task's next
occurrence is defined and within the window, WITHOUT checking whether a timer
is already armed for the task: the previously pending timer survives in the
queue and only the map handle is overwritten.  Two timers can therefore be
concurrently armed for one task, and a handler can run twice for one produced
occurrence (see the counterexample). -/
theorem C7_arming_unguarded (s : Sched) (t : TaskM) :
    match t.nextDate s.now with
    | none => handleTask s t = s
    | some date =>
      if s.latest + s.interval < date then handleTask s t = s
      else (handleTask s t).pending = s.pending ++ [⟨s.nextHandle, t, date⟩] ∧
           (handleTask s t).timers = insertL s.timers t.id s.nextHandle ∧
           (handleTask s t).tasks = s.tasks ∧
           (handleTask s t).nextHandle = s.nextHandle + 1 :=
  handleTask_cases s t

theorem c7reach4 : Reachable c7s4 :=
  Reachable.step (Reachable.step (Reachable.step (Reachable.step
      (Reachable.start 100 0 (by decide))
      (Step.sched _ c7task (by decide)))
      (Step.advance _ 100 (by decide)))
      (Step.poll _ (by decide)))
    (Step.fire _ ⟨0, c7task, 100⟩ (by decide) (by decide))

theorem c7reach7 : Reachable c7s7 :=
  Reachable.step (Reachable.step (Reachable.step c7reach4
      (Step.advance _ 50 (by decide)))
      (Step.fire _ ⟨1, c7task, 150⟩ (by decide) (by decide)))
    (Step.fire _ ⟨2, c7task, 150⟩ (by decide) (by decide))

/-- C7 counterexample: a reachable execution — the poll tick at instant 100
runs while the timer armed at schedule time is still pending (both are due at
100; the JS event loop may run either first) — in which two timers are
concurrently armed for task "b", and in which the handler is then invoked
TWICE for the single produced occurrence 150: the poll arms with no
already-armed check, refuting both the claimed guard and the at-most-once
guarantee. -/
theorem C7_counterexample :
    Reachable c7s4 ∧
    (c7s4.pending.filter (fun tm => decide (tm.task.id = "b"))).length = 2 ∧
    Reachable c7s7 ∧
    (c7s7.log.filter (fun e => decide (e = Ev.invoked ("b") 150))).length = 2 :=
  ⟨c7reach4, by decide, c7reach7, by decide⟩
